import Mathlib

/-!
Verification of the home-agent core mechanisms

Shallow embedding of the home-agent repository's core components:

* `src/home_agent/history.py` — `sliding_window_processor` (bounded
  conversation-history window),
* `src/home_agent/models/retry_model.py` — `RetryingModel.request`
  (exponential-backoff retry on HTTP 429),
* `src/home_agent/profile.py` + `src/home_agent/db.py` — profile
  persistence (`ProfileManager.get` / `ProfileManager.save`,
  `save_profile` / `get_profile`),
* `src/home_agent/bot.py` — `handle_message` (conversation driver
  persistence of exchange-log rows).

Python floats appear only as retry delays; the only operations performed
on them are doubling and `min`, both exact in binary floating point for
every magnitude that can arise here, so delays are embedded as `ℚ`.
Timestamps are embedded as `Nat` (the code only ever creates them via
`datetime.now` and serialises them through ISO strings, a lossless round
trip).
-/

set_option autoImplicit false

namespace HomeAgent

/-! ## History window (`src/home_agent/history.py`)

`sliding_window_processor(n)` returns a closure `processor(messages)`.
A message is a PydanticAI `ModelRequest` or `ModelResponse`; the
processor only ever inspects which of the two classes a message is an
instance of, so a message is embedded as its class tag plus its payload
(content string and a flag recording whether it carries tool-call /
tool-result parts — the flag is payload only, never inspected). -/

/-- A PydanticAI `ModelMessage`: either a `ModelRequest` (user prompt
and/or tool-call parts) or a `ModelResponse` (text and/or tool-return
parts). `tool` records whether the message carries tool parts. -/
inductive HMsg where
  | req (content : String) (tool : Bool)
  | resp (content : String) (tool : Bool)
  deriving DecidableEq, Repr

/-- Embeds `isinstance(msg, ModelRequest)`. -/
def HMsg.isReq : HMsg → Bool
  | .req _ _ => true
  | .resp _ _ => false

/-- The scanning loop of `processor` (history.py lines 96-115): walk the
message list, collecting complete `(ModelRequest, ModelResponse)` pairs;
a response with no preceding unconsumed request is skipped; an unpaired
request makes everything from it onwards the trailing `tail` and stops
the scan.  Returns `(pairs, tail)`. -/
def collectPairs : List HMsg → List (HMsg × HMsg) × List HMsg
  | [] => ([], [])
  | .resp c b :: rest => collectPairs rest
  | [.req c b] => ([], [.req c b])
  | .req c b :: .req c2 b2 :: rest => ([], .req c b :: .req c2 b2 :: rest)
  | .req c b :: .resp c2 b2 :: rest =>
      let r := collectPairs rest
      ((.req c b, .resp c2 b2) :: r.1, r.2)

/-- Embeds `pairs[-n:] if n < len(pairs) else pairs` (history.py line 118).
CPython slicing makes `pairs[-0:]` the same as `pairs[0:]`, i.e. the
whole list, so for `n = 0` every pair is kept whenever any pair exists. -/
def keptPairs (n : Nat) (pairs : List (HMsg × HMsg)) : List (HMsg × HMsg) :=
  if n < pairs.length then
    if n = 0 then pairs else pairs.drop (pairs.length - n)
  else pairs

/-- Flatten `(request, response)` pairs back into a flat message list
(history.py lines 121-124). -/
def flattenPairs : List (HMsg × HMsg) → List HMsg
  | [] => []
  | (r, s) :: ps => r :: s :: flattenPairs ps

/-- The full `processor(messages)` closure created by
`sliding_window_processor(n=n)`: collect pairs and tail, keep the last
`n` pairs (with the CPython `[-0:]` behaviour for `n = 0`), flatten, and
re-append the trailing messages. -/
def processor (n : Nat) (messages : List HMsg) : List HMsg :=
  let r := collectPairs messages
  flattenPairs (keptPairs n r.1) ++ r.2

/-- Every pair collected by the scan is a request followed by a response. -/
theorem collectPairs_shape (l : List HMsg) :
    ∀ p ∈ (collectPairs l).1, p.1.isReq = true ∧ p.2.isReq = false := by
  induction l using collectPairs.induct with
  | case1 => intro p hp; simp [collectPairs] at hp
  | case2 c b rest ih => intro p hp; rw [collectPairs] at hp; exact ih p hp
  | case3 c b => intro p hp; simp [collectPairs] at hp
  | case4 c b c2 b2 rest => intro p hp; simp [collectPairs] at hp
  | case5 c b c2 b2 rest ih =>
      intro p hp
      rw [collectPairs] at hp
      simp only [List.mem_cons] at hp
      rcases hp with rfl | hp
      · exact ⟨rfl, rfl⟩
      · exact ih p hp

/-- If the input ends in a request, the scan's trailing portion also ends
in that exact request (in particular it is nonempty). -/
theorem collectPairs_tail_getLast (l : List HMsg) :
    ∀ r : HMsg, l.getLast? = some r → r.isReq = true →
      ((collectPairs l).2).getLast? = some r := by
  induction l using collectPairs.induct with
  | case1 => intro r hr _; simp at hr
  | case2 c b rest ih =>
      intro r hr hreq
      match rest with
      | [] =>
          simp [HMsg.isReq] at hr
          subst hr
          simp [HMsg.isReq] at hreq
      | y :: rest2 =>
          rw [collectPairs]
          rw [List.getLast?_cons_cons] at hr
          exact ih r hr hreq
  | case3 c b =>
      intro r hr _
      simp at hr
      subst hr
      simp [collectPairs]
  | case4 c b c2 b2 rest =>
      intro r hr _
      rw [collectPairs]
      exact hr
  | case5 c b c2 b2 rest ih =>
      intro r hr hreq
      match rest with
      | [] =>
          simp [HMsg.isReq] at hr
          subst hr
          simp [HMsg.isReq] at hreq
      | y :: rest2 =>
          rw [collectPairs]
          rw [List.getLast?_cons_cons, List.getLast?_cons_cons] at hr
          exact ih r hr hreq

/-- Flattening pairs doubles the length. -/
theorem flattenPairs_length (ps : List (HMsg × HMsg)) :
    (flattenPairs ps).length = 2 * ps.length := by
  induction ps with
  | nil => rfl
  | cons p ps ih =>
      obtain ⟨r, s⟩ := p
      simp [flattenPairs, ih]
      ring

/-- Flattened well-shaped pairs strictly alternate request / response. -/
theorem flattenPairs_alternates (ps : List (HMsg × HMsg))
    (hps : ∀ p ∈ ps, p.1.isReq = true ∧ p.2.isReq = false) :
    ∀ i, i < (flattenPairs ps).length →
      ((flattenPairs ps).getD i (HMsg.req "" false)).isReq = decide (i % 2 = 0) := by
  induction ps with
  | nil => intro i hi; simp [flattenPairs] at hi
  | cons p ps ih =>
      obtain ⟨r, s⟩ := p
      have hr : r.isReq = true := (hps (r, s) (by simp)).1
      have hs : s.isReq = false := (hps (r, s) (by simp)).2
      intro i hi
      match i with
      | 0 => simpa [flattenPairs] using hr
      | 1 => simpa [flattenPairs] using hs
      | (j + 2) =>
          have hj : j < (flattenPairs ps).length := by
            simp [flattenPairs] at hi
            omega
          have := ih (fun q hq => hps q (by simp [hq])) j hj
          have hmod : (j + 2) % 2 = j % 2 := by omega
          simpa [flattenPairs, hmod] using this

/-- The kept pairs are a suffix of the collected pairs. -/
theorem keptPairs_suffix (n : Nat) (ps : List (HMsg × HMsg)) :
    keptPairs n ps <:+ ps := by
  unfold keptPairs
  split
  · split
    · exact List.suffix_refl ps
    · exact List.drop_suffix _ ps
  · exact List.suffix_refl ps

/-- C1: `sliding_window_processor(n=0)` applied to one complete pair.
The spec requires `keep = 0` to return only the trailing unpaired
request (here: nothing), and at most `keep` pairs in general; the code's
`pairs[-n:]` slice with `n = 0` instead keeps the entire pair list, so
the whole pair comes back. -/
theorem window_keep_zero_returns_all_pairs :
    processor 0 [HMsg.req "hello" false, HMsg.resp "hi" false]
      = [HMsg.req "hello" false, HMsg.resp "hi" false] := rfl

/-- C5: for every `keep` and every input ending in an unpaired request,
the window output's last element is that exact request. -/
theorem window_trailing_request_is_last (n : Nat) (msgs : List HMsg) (r : HMsg)
    (hlast : msgs.getLast? = some r) (hreq : r.isReq = true) :
    (processor n msgs).getLast? = some r := by
  have htail : ((collectPairs msgs).2).getLast? = some r :=
    collectPairs_tail_getLast msgs r hlast hreq
  have hne : (collectPairs msgs).2 ≠ [] := by
    intro h
    rw [h] at htail
    simp at htail
  unfold processor
  rw [List.getLast?_append_of_ne_nil _ hne]
  exact htail

/-- Witness for C5 at a concrete input: three messages ending in an
unpaired request, `keep = 1`. -/
theorem window_trailing_request_is_last_witness :
    (processor 1 [HMsg.req "a" false, HMsg.resp "b" false, HMsg.req "c" true]).getLast?
      = some (HMsg.req "c" true) :=
  window_trailing_request_is_last 1
    [HMsg.req "a" false, HMsg.resp "b" false, HMsg.req "c" true]
    (HMsg.req "c" true) (by rfl) (by rfl)

/-- C6: the window output is a flattening of a suffix of the input's
complete pairs followed by the trailing portion; the pair portion has
even length and strictly alternates request / response, so no pair
(tool-carrying or not) is ever split by the window boundary. -/
theorem window_pair_atomicity (n : Nat) (msgs : List HMsg) :
    ∃ kp : List (HMsg × HMsg),
      processor n msgs = flattenPairs kp ++ (collectPairs msgs).2 ∧
      kp <:+ (collectPairs msgs).1 ∧
      (flattenPairs kp).length % 2 = 0 ∧
      ∀ i, i < (flattenPairs kp).length →
        ((flattenPairs kp).getD i (HMsg.req "" false)).isReq = decide (i % 2 = 0) := by
  refine ⟨keptPairs n (collectPairs msgs).1, rfl, keptPairs_suffix _ _, ?_, ?_⟩
  · rw [flattenPairs_length]
    omega
  · refine flattenPairs_alternates _ ?_
    intro p hp
    exact collectPairs_shape msgs p ((keptPairs_suffix n _).subset hp)

/-- Witness for C6 at a concrete input: two pairs (the second carrying a
tool call) and a trailing request, `keep = 1`. -/
theorem window_pair_atomicity_witness :
    ∃ kp : List (HMsg × HMsg),
      processor 1 [HMsg.req "a" false, HMsg.resp "b" false,
          HMsg.req "c" true, HMsg.resp "d" true, HMsg.req "e" false]
        = flattenPairs kp ++ (collectPairs [HMsg.req "a" false, HMsg.resp "b" false,
            HMsg.req "c" true, HMsg.resp "d" true, HMsg.req "e" false]).2 ∧
      kp <:+ (collectPairs [HMsg.req "a" false, HMsg.resp "b" false,
          HMsg.req "c" true, HMsg.resp "d" true, HMsg.req "e" false]).1 ∧
      (flattenPairs kp).length % 2 = 0 ∧
      ∀ i, i < (flattenPairs kp).length →
        ((flattenPairs kp).getD i (HMsg.req "" false)).isReq = decide (i % 2 = 0) :=
  window_pair_atomicity 1 [HMsg.req "a" false, HMsg.resp "b" false,
    HMsg.req "c" true, HMsg.resp "d" true, HMsg.req "e" false]

/-! ## Retrying model proxy (`src/home_agent/models/retry_model.py`)

`RetryingModel.request` loops `for attempt in range(max_retries + 1)`,
calling `inner.request`; a `ModelHTTPError` with `status_code != 429`,
or one raised when `attempt >= max_retries`, is re-raised; otherwise the
optional `on_retry(attempt, delay)` callback runs, the proxy sleeps for
`delay`, and `delay = min(delay * 2, max_delay)`.  The inner model is
embedded as the sequence of outcomes of its successive invocations
(`inner t` is what the `t`-th call returns or raises); delays are `ℚ`
(doubling and `min` are exact on floats). -/

/-- Embeds `pydantic_ai.exceptions.ModelHTTPError` — the retry logic reads only
its `status_code`. -/
structure MErr where
  status : Nat
  deriving DecidableEq, Repr

/-- Observable outcome of one `RetryingModel.request` call: the returned
value or raised error, the sleeps performed (in order), the
`on_retry(attempt, delay)` invocations (in order), and how many times
`inner.request` was attempted. -/
structure RetryOutcome where
  result : Except MErr String
  sleeps : List ℚ
  retryCalls : List (Nat × ℚ)
  attempts : Nat
  deriving Repr

/-- The retry loop from `RetryingModel.request` (retry_model.py lines
133-151), entered at a given `attempt` index with the current `delay`. -/
def retryGo (inner : Nat → Except MErr String) (maxRetries : Nat) (maxDelay : ℚ) :
    (attempt : Nat) → (delay : ℚ) → RetryOutcome
  | attempt, delay =>
    match inner attempt with
    | .ok v => ⟨.ok v, [], [], 1⟩
    | .error e =>
        if h : e.status ≠ 429 ∨ maxRetries ≤ attempt then ⟨.error e, [], [], 1⟩
        else
          let rest := retryGo inner maxRetries maxDelay (attempt + 1) (min (delay * 2) maxDelay)
          ⟨rest.result, delay :: rest.sleeps, (attempt, delay) :: rest.retryCalls,
            rest.attempts + 1⟩
  termination_by attempt _ => maxRetries - attempt
  decreasing_by push_neg at h; omega

/-- Embeds `RetryingModel.request`: start the loop at attempt `0` with
`delay = base_delay`. -/
def retryingRequest (inner : Nat → Except MErr String) (maxRetries : Nat)
    (baseDelay maxDelay : ℚ) : RetryOutcome :=
  retryGo inner maxRetries maxDelay 0 baseDelay

/-- The sequence of delays the loop actually sleeps, starting from a
current delay `d`: `d`, then `min (d * 2) M`, doubling-and-capping each
step. -/
def delaySeq (d M : ℚ) : Nat → ℚ
  | 0 => d
  | i + 1 => min (delaySeq d M i * 2) M

/-- Shifting `delaySeq` by one step is starting it at the once-updated
delay. -/
theorem delaySeq_shift (d M : ℚ) (i : Nat) :
    delaySeq (min (d * 2) M) M i = delaySeq d M (i + 1) := by
  induction i with
  | zero => rfl
  | succ j ih =>
      rw [show delaySeq d M (j + 1 + 1) = min (delaySeq d M (j + 1) * 2) M from rfl]
      rw [delaySeq, ih]

/-- For a nonnegative cap `M`, the delay sequence from `base` has the
closed form `min (base * 2 ^ i) M` at every index `i ≥ 1` (the index-0
delay is `base` itself, uncapped). -/
theorem delaySeq_closed_form (base M : ℚ) (hM : 0 ≤ M) (i : Nat) :
    delaySeq base M (i + 1) = min (base * 2 ^ (i + 1)) M := by
  induction i with
  | zero => rw [delaySeq, delaySeq, pow_one]
  | succ j ih =>
      rw [delaySeq, ih]
      have h2 : (0 : ℚ) ≤ 2 := by norm_num
      rw [min_mul_of_nonneg _ _ h2, mul_assoc, ← pow_succ]
      rw [min_assoc, min_eq_right (by linarith : M ≤ M * 2)]

/-- Equation lemma: a successful attempt returns at once. -/
theorem retryGo_eq_ok (inner : Nat → Except MErr String) (maxR : Nat) (M : ℚ)
    (a : Nat) (d : ℚ) (v : String) (hs : inner a = .ok v) :
    retryGo inner maxR M a d = ⟨.ok v, [], [], 1⟩ := by
  rw [retryGo, hs]

/-- Equation lemma: a non-429 error, or an error with retries exhausted,
is re-raised at once. -/
theorem retryGo_eq_raise (inner : Nat → Except MErr String) (maxR : Nat) (M : ℚ)
    (a : Nat) (d : ℚ) (e : MErr) (he : inner a = .error e)
    (hc : e.status ≠ 429 ∨ maxR ≤ a) :
    retryGo inner maxR M a d = ⟨.error e, [], [], 1⟩ := by
  rw [retryGo, he]
  exact dif_pos hc

/-- Equation lemma: a 429 error with retries remaining sleeps and
recurses with the doubled-and-capped delay. -/
theorem retryGo_eq_retry (inner : Nat → Except MErr String) (maxR : Nat) (M : ℚ)
    (a : Nat) (d : ℚ) (e : MErr) (he : inner a = .error e)
    (h429 : e.status = 429) (hlt : a < maxR) :
    retryGo inner maxR M a d =
      ⟨(retryGo inner maxR M (a + 1) (min (d * 2) M)).result,
        d :: (retryGo inner maxR M (a + 1) (min (d * 2) M)).sleeps,
        (a, d) :: (retryGo inner maxR M (a + 1) (min (d * 2) M)).retryCalls,
        (retryGo inner maxR M (a + 1) (min (d * 2) M)).attempts + 1⟩ := by
  rw [retryGo, he]
  exact dif_neg (by push_neg; exact ⟨h429, by omega⟩)

/-- Loop behaviour on `k` consecutive rate-limit failures followed by a
success, entered at attempt `a` with current delay `d`: the success
value is returned after exactly `k` sleeps of durations
`delaySeq d M 0, …, delaySeq d M (k-1)`, with `on_retry` called before
each sleep with the attempt index and that delay, and `k + 1` attempts. -/
theorem retryGo_success (inner : Nat → Except MErr String) (maxR : Nat) (M : ℚ)
    (v : String) :
    ∀ (k a : Nat) (d : ℚ), a + k ≤ maxR →
      (∀ i, i < k → inner (a + i) = .error ⟨429⟩) →
      inner (a + k) = .ok v →
      retryGo inner maxR M a d =
        ⟨.ok v, (List.range k).map (delaySeq d M),
          (List.range k).map (fun i => (a + i, delaySeq d M i)), k + 1⟩ := by
  intro k
  induction k with
  | zero =>
      intro a d _ _ hsucc
      simp only [Nat.add_zero] at hsucc
      rw [retryGo_eq_ok inner maxR M a d v hsucc]
      simp
  | succ j ih =>
      intro a d hle hfail hsucc
      have h0 : inner a = .error ⟨429⟩ := by
        have := hfail 0 (Nat.succ_pos j)
        simpa using this
      rw [retryGo_eq_retry inner maxR M a d ⟨429⟩ h0 rfl (by omega)]
      have hrec := ih (a + 1) (min (d * 2) M) (by omega)
        (fun i hi => by
          have := hfail (i + 1) (by omega)
          rw [show a + 1 + i = a + (i + 1) by omega]
          exact this)
        (by rw [show a + 1 + j = a + (j + 1) by omega]; exact hsucc)
      rw [hrec]
      have hs1 : List.map (delaySeq (min (d * 2) M) M) (List.range j)
          = List.map (fun i => delaySeq d M (i + 1)) (List.range j) :=
        List.map_congr_left (fun i _ => delaySeq_shift d M i)
      have hs2 : List.map (delaySeq d M) (List.range (j + 1))
          = delaySeq d M 0 :: List.map (fun i => delaySeq d M (i + 1)) (List.range j) := by
        rw [List.range_succ_eq_map, List.map_cons, List.map_map]
        rfl
      have hc1 : List.map (fun i => (a + 1 + i, delaySeq (min (d * 2) M) M i)) (List.range j)
          = List.map (fun i => (a + (i + 1), delaySeq d M (i + 1))) (List.range j) :=
        List.map_congr_left (fun i _ => by
          rw [show a + 1 + i = a + (i + 1) by omega, delaySeq_shift])
      have hc2 : List.map (fun i => (a + i, delaySeq d M i)) (List.range (j + 1))
          = (a + 0, delaySeq d M 0)
              :: List.map (fun i => (a + (i + 1), delaySeq d M (i + 1))) (List.range j) := by
        rw [List.range_succ_eq_map, List.map_cons, List.map_map]
        rfl
      rw [hs1, hs2, hc1, hc2]
      simp [delaySeq]

/-- Loop behaviour when every remaining attempt fails with the same 429
error, entered at attempt `a` (with `j` retries left before exhaustion):
the error is re-raised after `j` sleeps and `j + 1` attempts. -/
theorem retryGo_exhaust (inner : Nat → Except MErr String) (maxR : Nat) (M : ℚ)
    (e : MErr) (h429 : e.status = 429) :
    ∀ (j a : Nat) (d : ℚ), a + j = maxR →
      (∀ i, i ≤ j → inner (a + i) = .error e) →
      retryGo inner maxR M a d =
        ⟨.error e, (List.range j).map (delaySeq d M),
          (List.range j).map (fun i => (a + i, delaySeq d M i)), j + 1⟩ := by
  intro j
  induction j with
  | zero =>
      intro a d ha hfail
      have h0 : inner a = .error e := by simpa using hfail 0 (Nat.le_refl 0)
      rw [retryGo_eq_raise inner maxR M a d e h0 (Or.inr (by omega))]
      simp
  | succ j ih =>
      intro a d ha hfail
      have h0 : inner a = .error e := by simpa using hfail 0 (Nat.zero_le _)
      rw [retryGo_eq_retry inner maxR M a d e h0 h429 (by omega)]
      have hrec := ih (a + 1) (min (d * 2) M) (by omega)
        (fun i hi => by
          have := hfail (i + 1) (by omega)
          rw [show a + 1 + i = a + (i + 1) by omega]
          exact this)
      rw [hrec]
      have hs1 : List.map (delaySeq (min (d * 2) M) M) (List.range j)
          = List.map (fun i => delaySeq d M (i + 1)) (List.range j) :=
        List.map_congr_left (fun i _ => delaySeq_shift d M i)
      have hs2 : List.map (delaySeq d M) (List.range (j + 1))
          = delaySeq d M 0 :: List.map (fun i => delaySeq d M (i + 1)) (List.range j) := by
        rw [List.range_succ_eq_map, List.map_cons, List.map_map]
        rfl
      have hc1 : List.map (fun i => (a + 1 + i, delaySeq (min (d * 2) M) M i)) (List.range j)
          = List.map (fun i => (a + (i + 1), delaySeq d M (i + 1))) (List.range j) :=
        List.map_congr_left (fun i _ => by
          rw [show a + 1 + i = a + (i + 1) by omega, delaySeq_shift])
      have hc2 : List.map (fun i => (a + i, delaySeq d M i)) (List.range (j + 1))
          = (a + 0, delaySeq d M 0)
              :: List.map (fun i => (a + (i + 1), delaySeq d M (i + 1))) (List.range j) := by
        rw [List.range_succ_eq_map, List.map_cons, List.map_map]
        rfl
      rw [hs1, hs2, hc1, hc2]
      simp [delaySeq]

/-- The delay formula of the amended C2: the first sleep is `base`
itself (uncapped); from the second sleep on, `min (base * 2 ^ i) M`. -/
def cappedDelay (base M : ℚ) : Nat → ℚ
  | 0 => base
  | i + 1 => min (base * 2 ^ (i + 1)) M

/-- The loop's actual delay sequence equals the amended closed form when
the cap is nonnegative. -/
theorem delaySeq_eq_cappedDelay (base M : ℚ) (hM : 0 ≤ M) (i : Nat) :
    delaySeq base M i = cappedDelay base M i := by
  match i with
  | 0 => rfl
  | j + 1 => rw [delaySeq_closed_form base M hM j, cappedDelay]

/-- Inner-model behaviour used by the C2 counterexample: a single 429
failure, then success. -/
def cexInner : Nat → Except MErr String :=
  fun t => if t = 0 then .error ⟨429⟩ else .ok "ok"

/-- C2 counterexample: with `max_retries = 2`, `base_delay = 50`,
`max_delay = 30` and one 429 failure before success (`k = 1 < 2`), the
code's only sleep lasts `50` — not `min (50 * 2 ^ 0) 30 = 30` as the
claim's closed form demands: the first sleep is never capped. -/
theorem retrying_first_sleep_uncapped_counterexample :
    (retryingRequest cexInner 2 50 30).sleeps = [50] ∧
      (retryingRequest cexInner 2 50 30).sleeps ≠ [min ((50 : ℚ) * 2 ^ 0) 30] := by
  have h0 : cexInner 0 = .error ⟨429⟩ := rfl
  have h1 : cexInner 1 = .ok "ok" := rfl
  have heval : retryingRequest cexInner 2 50 30 =
      ⟨(retryGo cexInner 2 30 1 (min (50 * 2) 30)).result,
        50 :: (retryGo cexInner 2 30 1 (min (50 * 2) 30)).sleeps,
        (0, 50) :: (retryGo cexInner 2 30 1 (min (50 * 2) 30)).retryCalls,
        (retryGo cexInner 2 30 1 (min (50 * 2) 30)).attempts + 1⟩ :=
    retryGo_eq_retry cexInner 2 30 0 50 ⟨429⟩ h0 rfl (by omega)
  rw [heval, retryGo_eq_ok cexInner 2 30 1 (min (50 * 2) 30) "ok" h1]
  refine ⟨rfl, ?_⟩
  intro h
  simp only [List.cons.injEq] at h
  have : ((50 : ℚ)) = min ((50 : ℚ) * 2 ^ 0) 30 := h.1
  norm_num at this

/-- C2 (amended): for `k < max_retries` rate-limit failures followed by
success and a nonnegative `max_delay`, the proxy returns the success
value after exactly `k` sleeps, the `i`-th sleep lasting `base_delay`
for `i = 0` and `min (base_delay * 2 ^ i) max_delay` for `i ≥ 1`, with
`on_retry` invoked before each sleep with the zero-based attempt index
and that delay, and `k + 1` total attempts. -/
theorem retrying_success_after_rate_limits (inner : Nat → Except MErr String)
    (maxRetries k : Nat) (baseDelay maxDelay : ℚ) (v : String)
    (hM : 0 ≤ maxDelay) (hk : k < maxRetries)
    (hfail : ∀ i, i < k → inner i = .error ⟨429⟩)
    (hsucc : inner k = .ok v) :
    retryingRequest inner maxRetries baseDelay maxDelay =
      ⟨.ok v, (List.range k).map (cappedDelay baseDelay maxDelay),
        (List.range k).map (fun i => (i, cappedDelay baseDelay maxDelay i)), k + 1⟩ := by
  have h := retryGo_success inner maxRetries maxDelay v k 0 baseDelay (by omega)
    (fun i hi => by simpa using hfail i hi) (by simpa using hsucc)
  rw [retryingRequest, h]
  have hs : List.map (delaySeq baseDelay maxDelay) (List.range k)
      = List.map (cappedDelay baseDelay maxDelay) (List.range k) :=
    List.map_congr_left (fun i _ => delaySeq_eq_cappedDelay baseDelay maxDelay hM i)
  have hc : List.map (fun i => (0 + i, delaySeq baseDelay maxDelay i)) (List.range k)
      = List.map (fun i => (i, cappedDelay baseDelay maxDelay i)) (List.range k) :=
    List.map_congr_left (fun i _ => by
      rw [Nat.zero_add, delaySeq_eq_cappedDelay baseDelay maxDelay hM i])
  rw [hs, hc]

/-- Inner-model behaviour used by the C2 witness: 429 failures on
attempts 0 and 1, success on attempt 2. -/
def witInnerC2 : Nat → Except MErr String :=
  fun t => if t < 2 then .error ⟨429⟩ else .ok "done"

/-- Witness for the amended C2 at `max_retries = 3`, `base_delay = 1`,
`max_delay = 30`, `k = 2`. -/
theorem retrying_success_after_rate_limits_witness :
    retryingRequest witInnerC2 3 1 30 =
      ⟨.ok "done", (List.range 2).map (cappedDelay 1 30),
        (List.range 2).map (fun i => (i, cappedDelay 1 30 i)), 3⟩ :=
  retrying_success_after_rate_limits witInnerC2 3 2 1 30 "done"
    (by norm_num) (by omega)
    (fun i hi => by
      match i, hi with
      | 0, _ => rfl
      | 1, _ => rfl)
    rfl

/-- C3: the proxy propagates the inner error (1) at once, with zero
sleeps and a single attempt, when the first attempt fails with a
non-429 status; and (2) after exactly `max_retries` sleeps and
`max_retries + 1` attempts when every attempt fails with the same 429
error. -/
theorem retrying_error_propagation (inner : Nat → Except MErr String)
    (maxRetries : Nat) (baseDelay maxDelay : ℚ) (e : MErr) :
    (inner 0 = .error e → e.status ≠ 429 →
      retryingRequest inner maxRetries baseDelay maxDelay = ⟨.error e, [], [], 1⟩) ∧
    ((∀ i, i ≤ maxRetries → inner i = .error e) → e.status = 429 →
      (retryingRequest inner maxRetries baseDelay maxDelay).result = .error e ∧
      (retryingRequest inner maxRetries baseDelay maxDelay).sleeps.length = maxRetries ∧
      (retryingRequest inner maxRetries baseDelay maxDelay).attempts = maxRetries + 1) := by
  constructor
  · intro he hst
    exact retryGo_eq_raise inner maxRetries maxDelay 0 baseDelay e he (Or.inl hst)
  · intro hfail h429
    have h := retryGo_exhaust inner maxRetries maxDelay e h429 maxRetries 0 baseDelay
      (by omega) (fun i hi => by simpa using hfail i hi)
    rw [retryingRequest, h]
    refine ⟨rfl, ?_, rfl⟩
    simp

/-- Inner-model behaviour used by the C3 witness, first case: an
immediate non-429 failure. -/
def witInnerC3a : Nat → Except MErr String := fun _ => .error ⟨500⟩

/-- Inner-model behaviour used by the C3 witness, second case: every
attempt fails with 429. -/
def witInnerC3b : Nat → Except MErr String := fun _ => .error ⟨429⟩

/-- Witness for C3: a 500 error on the first attempt propagates with no
sleeps and one attempt (`max_retries = 3`); unbroken 429 failures with
`max_retries = 2` surface the 429 after 2 sleeps and 3 attempts. -/
theorem retrying_error_propagation_witness :
    (retryingRequest witInnerC3a 3 1 30 = ⟨.error ⟨500⟩, [], [], 1⟩) ∧
    ((retryingRequest witInnerC3b 2 1 30).result = .error ⟨429⟩ ∧
      (retryingRequest witInnerC3b 2 1 30).sleeps.length = 2 ∧
      (retryingRequest witInnerC3b 2 1 30).attempts = 3) :=
  ⟨(retrying_error_propagation witInnerC3a 3 1 30 ⟨500⟩).1 rfl (by norm_num),
    (retrying_error_propagation witInnerC3b 2 1 30 ⟨429⟩).2 (fun i _ => rfl) rfl⟩

/-! ## Profile store (`src/home_agent/profile.py`, `src/home_agent/db.py`)

`UserProfile` is a Pydantic model; `ProfileManager.save` stamps
`updated_at`, serialises the profile with `model_dump(mode="json")`,
pops `user_id`, and upserts the blob keyed by `user_id`
(`db.save_profile`).  `ProfileManager.get` reads the blob, re-adds
`user_id`, rebuilds `media_preferences` (defaulting it when absent),
fills absent `created_at` / `updated_at` with `datetime.now`, and
validates with `UserProfile(**profile_dict)` — Pydantic's default
config substitutes declared defaults for absent fields and ignores
unknown ones.  A stored blob is embedded as a record of optional fields
(absent = `none`) plus a list of unknown stored fields; timestamps are
`Nat` (ISO serialisation round-trips exactly). -/

/-- The `Literal["4k", "1080p"]` quality values. -/
inductive Quality where
  | q4k
  | q1080p
  deriving DecidableEq, Repr

/-- The `Literal["always", "never"]` confirmation modes. -/
inductive ConfirmationMode where
  | always
  | never
  deriving DecidableEq, Repr

/-- Embeds `MediaPreferences`: both fields default to `None` ("not yet asked"). -/
structure MediaPreferences where
  movie_quality : Option Quality
  series_quality : Option Quality
  deriving DecidableEq, Repr

/-- The declared `MediaPreferences()` default. -/
def defaultMediaPreferences : MediaPreferences := ⟨none, none⟩

/-- Embeds `UserProfile` (profile.py lines 60-81). -/
structure UserProfile where
  user_id : Int
  name : Option String
  created_at : Nat
  updated_at : Nat
  reply_language : String
  confirmation_mode : ConfirmationMode
  media_preferences : MediaPreferences
  notes : List String
  deriving DecidableEq, Repr

/-- A stored profile blob: each declared field either present or absent,
plus any fields unknown to the current schema.  `user_id` is never in
the blob — `save` pops it, `get` re-adds it from the key. -/
structure ProfileBlob where
  name : Option (Option String)
  created_at : Option Nat
  updated_at : Option Nat
  reply_language : Option String
  confirmation_mode : Option ConfirmationMode
  media_preferences : Option MediaPreferences
  notes : Option (List String)
  unknown : List (String × String)
  deriving DecidableEq, Repr

/-- Embeds `profile.model_dump(mode="json")` followed by
`profile_data.pop("user_id", None)` (profile.py lines 185-187): every
declared field is present, nothing else is. -/
def dumpProfile (p : UserProfile) : ProfileBlob :=
  { name := some p.name
    created_at := some p.created_at
    updated_at := some p.updated_at
    reply_language := some p.reply_language
    confirmation_mode := some p.confirmation_mode
    media_preferences := some p.media_preferences
    notes := some p.notes
    unknown := [] }

/-- Rebuilding a `UserProfile` from a stored blob (profile.py lines
139-160): `user_id` comes from the key; `media_preferences` defaults
when absent; absent `created_at` / `updated_at` become `now`
(`datetime.now` at load time); the remaining absent fields take the
`UserProfile` declared defaults; unknown stored fields are ignored
(Pydantic default config). -/
def profileFromBlob (uid : Int) (b : ProfileBlob) (now : Nat) : UserProfile :=
  { user_id := uid
    name := b.name.getD none
    created_at := b.created_at.getD now
    updated_at := b.updated_at.getD now
    reply_language := b.reply_language.getD "English"
    confirmation_mode := b.confirmation_mode.getD .always
    media_preferences := b.media_preferences.getD defaultMediaPreferences
    notes := b.notes.getD [] }

/-- The `user_profiles` table: blobs keyed by `user_id`. -/
def ProfileDB : Type := List (Int × ProfileBlob)

/-- Embeds `db.save_profile`: upsert the blob for a key.  Read semantics are
those of the first matching key, so prepending models the SQL upsert. -/
def dbSaveProfile (db : ProfileDB) (uid : Int) (b : ProfileBlob) : ProfileDB :=
  (uid, b) :: db

/-- Embeds `db.get_profile`: the stored blob for a key, or `none`. -/
def dbGetProfile (db : ProfileDB) (uid : Int) : Option ProfileBlob :=
  List.lookup uid db

/-- Embeds `_LOCALE_TO_LANGUAGE` (profile.py lines 20-26). -/
def localeTable : List (String × String) :=
  [("nl", "Dutch"), ("en", "English"), ("fr", "French"), ("de", "German"), ("es", "Spanish")]

/-- The characters before the first `-`, i.e. `code.split("-")[0]` on
the character level. -/
def takeUntilDash : List Char → List Char
  | [] => []
  | c :: cs => if c = '-' then [] else c :: takeUntilDash cs

/-- Embeds `resolve_language` (profile.py lines 31-45): `None` or empty code
falls back to the default; otherwise the part before the first `-`
(`code.split("-")[0]`), lowercased, is looked up in the locale table,
defaulting to English. -/
def resolve_language (language_code : Option String) : String :=
  match language_code with
  | none => "English"
  | some code =>
      if code = "" then "English"
      else
        let base := String.mk ((takeUntilDash code.data).map Char.toLower)
        (List.lookup base localeTable).getD "English"

/-- Embeds `ProfileManager.save` (profile.py lines 177-190): stamp
`updated_at` with the current time, dump, and upsert under `user_id`. -/
def managerSave (db : ProfileDB) (p : UserProfile) (now : Nat) : ProfileDB :=
  dbSaveProfile db p.user_id (dumpProfile { p with updated_at := now })

/-- Python truthiness of the parsed blob dict (`if profile_data:` at
profile.py line 138): the dict is truthy iff it has at least one key,
i.e. at least one declared field is present or an unknown field is
stored.  `save` always writes every declared field, so every blob this
code stores is truthy. -/
def blobTruthy (b : ProfileBlob) : Bool :=
  b.name.isSome || b.created_at.isSome || b.updated_at.isSome ||
  b.reply_language.isSome || b.confirmation_mode.isSome ||
  b.media_preferences.isSome || b.notes.isSome || !b.unknown.isEmpty

/-- The creation branch of `ProfileManager.get` (profile.py lines
162-175): build a fresh default profile — seeding `reply_language` from
the locale hint — persist it, and return it. -/
def managerCreate (db : ProfileDB) (uid : Int) (language_code : Option String) (now : Nat) :
    UserProfile × ProfileDB :=
  let p : UserProfile :=
    { user_id := uid
      name := none
      created_at := now
      updated_at := now
      reply_language := resolve_language language_code
      confirmation_mode := .always
      media_preferences := defaultMediaPreferences
      notes := [] }
  (p, managerSave db p now)

/-- Embeds `ProfileManager.get` (profile.py lines 126-175): if a stored
blob exists and is truthy (`if profile_data:` — a missing row gives
`None`, a stored empty dict is falsy), return the rebuilt stored
profile with the store untouched and the hint ignored; otherwise take
the creation branch. -/
def managerGet (db : ProfileDB) (uid : Int) (language_code : Option String) (now : Nat) :
    UserProfile × ProfileDB :=
  match dbGetProfile db uid with
  | some b =>
      if blobTruthy b then (profileFromBlob uid b now, db)
      else managerCreate db uid language_code now
  | none => managerCreate db uid language_code now

/-- C4: `save(p)` then `get(p.user_id)` (at a save time no earlier than
`p.updated_at`) returns a profile equal to `p` in every field except
`updated_at`, which is at least the original. -/
theorem profile_roundtrip (db : ProfileDB) (p : UserProfile) (tsave tget : Nat)
    (hint : Option String) (h : p.updated_at ≤ tsave) :
    let q := (managerGet (managerSave db p tsave) p.user_id hint tget).1
    q.user_id = p.user_id ∧ q.name = p.name ∧ q.created_at = p.created_at ∧
    q.reply_language = p.reply_language ∧ q.confirmation_mode = p.confirmation_mode ∧
    q.media_preferences.movie_quality = p.media_preferences.movie_quality ∧
    q.media_preferences.series_quality = p.media_preferences.series_quality ∧
    q.notes = p.notes ∧ p.updated_at ≤ q.updated_at := by
  intro q
  have hq : q = { p with updated_at := tsave } := by
    show (managerGet (managerSave db p tsave) p.user_id hint tget).1 = _
    rw [managerSave, managerGet]
    rw [show dbGetProfile (dbSaveProfile db p.user_id (dumpProfile { p with updated_at := tsave }))
          p.user_id = some (dumpProfile { p with updated_at := tsave }) by
        simp [dbGetProfile, dbSaveProfile, List.lookup]]
    rfl
  rw [hq]
  refine ⟨rfl, rfl, rfl, rfl, rfl, rfl, rfl, rfl, h⟩

/-- Profile used by the C4 witness. -/
def witProfile : UserProfile :=
  { user_id := 1
    name := some "Ann"
    created_at := 5
    updated_at := 7
    reply_language := "Dutch"
    confirmation_mode := .never
    media_preferences := ⟨some .q4k, none⟩
    notes := ["likes sci-fi"] }

/-- Witness for C4 at a concrete profile saved at time 10, read at 11. -/
theorem profile_roundtrip_witness :
    let q := (managerGet (managerSave [] witProfile 10) witProfile.user_id (some "en") 11).1
    q.user_id = witProfile.user_id ∧ q.name = witProfile.name ∧
    q.created_at = witProfile.created_at ∧
    q.reply_language = witProfile.reply_language ∧
    q.confirmation_mode = witProfile.confirmation_mode ∧
    q.media_preferences.movie_quality = witProfile.media_preferences.movie_quality ∧
    q.media_preferences.series_quality = witProfile.media_preferences.series_quality ∧
    q.notes = witProfile.notes ∧ witProfile.updated_at ≤ q.updated_at :=
  profile_roundtrip [] witProfile 10 11 (some "en") (by norm_num [witProfile])

/-- The stored empty dict `{}`: every declared field absent, no unknown
fields.  It is falsy in Python, so `get` treats it as no profile. -/
def emptyBlob : ProfileBlob := ⟨none, none, none, none, none, none, none, []⟩

/-- Blob used by the C8 counterexample and witness: only `updated_at`
and an unknown field are stored, so the blob is truthy and takes the
rebuild path while lacking `created_at`. -/
def witBlobC8 : ProfileBlob :=
  { name := none
    created_at := none
    updated_at := some 3
    reply_language := none
    confirmation_mode := none
    media_preferences := none
    notes := none
    unknown := [("legacy_field", "x")] }

/-- C8 counterexample theorem: `created_at` has no declared default —
for a stored (truthy) blob lacking it, `get` substitutes the load-time
clock, so loading the same stored blob at times 0 and 1 yields
different `created_at` values, which no fixed declared default could
do. -/
theorem profile_created_at_no_declared_default_counterexample :
    (managerGet [((7 : Int), witBlobC8)] 7 none 0).1.created_at
      ≠ (managerGet [((7 : Int), witBlobC8)] 7 none 1).1.created_at := by
  simp [managerGet, dbGetProfile, List.lookup, blobTruthy, witBlobC8, profileFromBlob]

/-- C8 (amended): `get` never fails; on a stored non-empty (truthy)
blob it takes the rebuild path, where fields with declared defaults
that are absent from the blob take those defaults (`name = None`,
`reply_language = "English"`, `confirmation_mode = always`,
`media_preferences` both unset, `notes = []`); absent `created_at` /
`updated_at` — which have no declared default — take the load-time
clock; unknown stored fields are ignored.  (A stored empty dict is
falsy and is handled by the creation branch instead — `save` never
writes one.) -/
theorem profile_schema_defaulting (db : ProfileDB) (uid : Int) (b : ProfileBlob)
    (hint : Option String) (now : Nat) (hb : dbGetProfile db uid = some b)
    (ht : blobTruthy b = true) :
    (managerGet db uid hint now).1 = profileFromBlob uid b now ∧
    (b.name = none → (profileFromBlob uid b now).name = none) ∧
    (b.reply_language = none → (profileFromBlob uid b now).reply_language = "English") ∧
    (b.confirmation_mode = none →
      (profileFromBlob uid b now).confirmation_mode = .always) ∧
    (b.media_preferences = none →
      (profileFromBlob uid b now).media_preferences = defaultMediaPreferences) ∧
    (b.notes = none → (profileFromBlob uid b now).notes = []) ∧
    (b.created_at = none → (profileFromBlob uid b now).created_at = now) ∧
    (b.updated_at = none → (profileFromBlob uid b now).updated_at = now) ∧
    (∀ extra, profileFromBlob uid { b with unknown := extra } now
      = profileFromBlob uid b now) := by
  refine ⟨?_, ?_, ?_, ?_, ?_, ?_, ?_, ?_, ?_⟩
  · rw [managerGet, hb]
    simp [ht]
  · intro hn; simp [profileFromBlob, hn]
  · intro hn; simp [profileFromBlob, hn]
  · intro hn; simp [profileFromBlob, hn]
  · intro hn; simp [profileFromBlob, hn]
  · intro hn; simp [profileFromBlob, hn]
  · intro hn; simp [profileFromBlob, hn]
  · intro hn; simp [profileFromBlob, hn]
  · intro extra; rfl

/-- Witness for the amended C8 at a concrete stored truthy blob. -/
theorem profile_schema_defaulting_witness :
    (managerGet [((7 : Int), witBlobC8)] 7 (some "nl") 9).1 = profileFromBlob 7 witBlobC8 9 ∧
    (witBlobC8.name = none → (profileFromBlob 7 witBlobC8 9).name = none) ∧
    (witBlobC8.reply_language = none →
      (profileFromBlob 7 witBlobC8 9).reply_language = "English") ∧
    (witBlobC8.confirmation_mode = none →
      (profileFromBlob 7 witBlobC8 9).confirmation_mode = .always) ∧
    (witBlobC8.media_preferences = none →
      (profileFromBlob 7 witBlobC8 9).media_preferences = defaultMediaPreferences) ∧
    (witBlobC8.notes = none → (profileFromBlob 7 witBlobC8 9).notes = []) ∧
    (witBlobC8.created_at = none → (profileFromBlob 7 witBlobC8 9).created_at = 9) ∧
    (witBlobC8.updated_at = none → (profileFromBlob 7 witBlobC8 9).updated_at = 9) ∧
    (∀ extra, profileFromBlob 7 { witBlobC8 with unknown := extra } 9
      = profileFromBlob 7 witBlobC8 9) :=
  profile_schema_defaulting [((7 : Int), witBlobC8)] 7 witBlobC8 (some "nl") 9
    (by simp [dbGetProfile, List.lookup]) (by rfl)

/-- C9 counterexample: an identity whose stored blob is the empty dict
`{}` has a stored profile row, yet `get` takes the creation branch
(`if profile_data:` is false for `{}`): the returned `reply_language`
follows the locale hint — `"Dutch"` for hint `nl`, `"English"` for hint
`en`, over the same store — and the store is overwritten, so the hint
is consulted and the store mutated for that stored profile. -/
theorem profile_hint_empty_blob_counterexample :
    (managerGet [((3 : Int), emptyBlob)] 3 (some "nl") 5).1.reply_language = "Dutch" ∧
    (managerGet [((3 : Int), emptyBlob)] 3 (some "en") 5).1.reply_language = "English" ∧
    (managerGet [((3 : Int), emptyBlob)] 3 (some "nl") 5).2 ≠ [((3 : Int), emptyBlob)] := by
  refine ⟨by rfl, by rfl, ?_⟩
  intro h
  exact absurd (congrArg List.length h) (by simp [managerGet, dbGetProfile, List.lookup,
    blobTruthy, emptyBlob, managerCreate, managerSave, dbSaveProfile])

/-- C9 (amended): for an identity whose stored blob is non-empty
(truthy — `save` always writes every field, so every blob this code
stores is): `get` with any locale hint returns the rebuilt stored
profile — the same value for every hint, with the stored
`reply_language` — and leaves the store unchanged. -/
theorem profile_hint_frame (db : ProfileDB) (uid : Int) (b : ProfileBlob) (now : Nat)
    (hb : dbGetProfile db uid = some b) (ht : blobTruthy b = true) :
    ∀ hint : Option String,
      managerGet db uid hint now = (profileFromBlob uid b now, db) ∧
      (managerGet db uid hint now).1.reply_language = b.reply_language.getD "English" := by
  intro hint
  have h : managerGet db uid hint now = (profileFromBlob uid b now, db) := by
    rw [managerGet, hb]
    simp [ht]
  exact ⟨h, by rw [h]; rfl⟩

/-- Blob used by the C9 witness: a stored profile with Dutch replies. -/
def witBlobC9 : ProfileBlob :=
  { name := some (some "Bob")
    created_at := some 2
    updated_at := some 4
    reply_language := some "Dutch"
    confirmation_mode := some .never
    media_preferences := some ⟨none, some .q1080p⟩
    notes := some ["prefers subs"]
    unknown := [] }

/-- Witness for C9: a stored Dutch-language profile read with an
English locale hint keeps its stored language and leaves the store
unchanged. -/
theorem profile_hint_frame_witness :
    managerGet [((3 : Int), witBlobC9)] 3 (some "en") 8
        = (profileFromBlob 3 witBlobC9 8, [((3 : Int), witBlobC9)]) ∧
      (managerGet [((3 : Int), witBlobC9)] 3 (some "en") 8).1.reply_language
        = witBlobC9.reply_language.getD "English" :=
  profile_hint_frame [((3 : Int), witBlobC9)] 3 witBlobC9 8
    (by simp [dbGetProfile, List.lookup]) (by rfl) (some "en")

/-! ## Conversation driver (`src/home_agent/bot.py`)

`handle_message` (bot.py lines 101-177): after the whitelist check and
profile/history loading, `agent.run` is awaited; a `ModelHTTPError`
yields a "service busy" notice (status 429) or a generic notice, any
other exception a generic notice, and in both cases the handler returns
without touching the exchange log.  On success, an empty output sends a
fallback notice and returns — still without persisting.  Only a
successful non-empty output appends the user row and then the assistant
row, then sends the reply in chunks.  The embedding keeps the exchange
log (the `conversations` table rows for this turn) and an abstract
description of what was sent back. -/

/-- Outcome of `await agent.run(...)`: a returned output string, a
`ModelHTTPError` with a status code, or any other exception. -/
inductive AgentOutcome where
  | success (output : String)
  | httpError (status : Nat)
  | failure
  deriving DecidableEq, Repr

/-- One durable `conversations` row. -/
structure LogRow where
  user_id : Int
  role : String
  content : String
  deriving DecidableEq, Repr

/-- What the handler sends back over the transport. -/
inductive BotReply where
  | rejection
  | busy
  | generic
  | fallback
  | chunked (text : String)
  deriving DecidableEq, Repr

/-- Embeds `handle_message` for one turn: given the whitelist, the user, the
incoming text, the agent outcome, and the current exchange log, returns
the exchange log after the turn and the reply sent. -/
def handle_message (allowed : List Int) (uid : Int) (text : String)
    (outcome : AgentOutcome) (log : List LogRow) : List LogRow × BotReply :=
  if uid ∈ allowed then
    match outcome with
    | .httpError s => (log, if s = 429 then .busy else .generic)
    | .failure => (log, .generic)
    | .success reply =>
        if reply = "" then (log, .fallback)
        else (log ++ [⟨uid, "user", text⟩, ⟨uid, "assistant", reply⟩], .chunked reply)
  else (log, .rejection)

/-- C7: for an authorized user, a failed model invocation (HTTP error of
any status, or any other exception) leaves the exchange log unchanged;
a successful non-empty output appends exactly the user row followed by
the assistant row. -/
theorem driver_exchange_log_atomicity (allowed : List Int) (uid : Int) (text : String)
    (log : List LogRow) (h : uid ∈ allowed) :
    (∀ s, (handle_message allowed uid text (.httpError s) log).1 = log) ∧
    ((handle_message allowed uid text .failure log).1 = log) ∧
    (∀ reply, reply ≠ "" →
      handle_message allowed uid text (.success reply) log
        = (log ++ [⟨uid, "user", text⟩, ⟨uid, "assistant", reply⟩], .chunked reply)) := by
  refine ⟨?_, ?_, ?_⟩
  · intro s
    simp [handle_message, h]
  · simp [handle_message, h]
  · intro reply hr
    simp [handle_message, h, hr]

/-- Witness for C7: user 42 on the whitelist, concrete log. -/
theorem driver_exchange_log_atomicity_witness :
    (∀ s, (handle_message [42] 42 "hi" (.httpError s) []).1 = []) ∧
    ((handle_message [42] 42 "hi" .failure []).1 = []) ∧
    (∀ reply, reply ≠ "" →
      handle_message [42] 42 "hi" (.success reply) []
        = ([] ++ [⟨42, "user", "hi"⟩, ⟨42, "assistant", reply⟩], .chunked reply)) :=
  driver_exchange_log_atomicity [42] 42 "hi" [] (by simp)

/-- C10: for an authorized user, a successful but empty model output
sends the fallback notice and persists nothing — the exchange log is
returned unchanged. -/
theorem driver_empty_output_no_persist (allowed : List Int) (uid : Int) (text : String)
    (log : List LogRow) (h : uid ∈ allowed) :
    handle_message allowed uid text (.success "") log = (log, .fallback) := by
  simp [handle_message, h]

/-- Witness for C10. -/
theorem driver_empty_output_no_persist_witness :
    handle_message [42] 42 "hello" (.success "") [⟨42, "user", "old"⟩]
      = ([⟨42, "user", "old"⟩], .fallback) :=
  driver_empty_output_no_persist [42] 42 "hello" [⟨42, "user", "old"⟩] (by simp)

end HomeAgent

